import Mathlib

/-!
Shallow embedding of the interactive selection engine of the
pnpm-upgrade-interactive repository, translated from
src/ui/state.ts (StateManager), src/ui/renderer.ts (UIRenderer),
the InputHandler and VersionUtils modules, and the orchestrating
interactiveTableSelector loop, together with theorems about the
selection, navigation, scrolling, input and rendering behaviour.

Conventions of the embedding: JavaScript numbers that are always
nonnegative integers in the source are modelled as Nat (JS
expressions of the form Math.max(0, a - b) coincide with truncated
Nat subtraction, and every raw subtraction in the translated code is
guarded by a branch condition that keeps it nonnegative); fields
that can hold -1 are modelled as Int.  Methods that mutate
this.uiState or an argument array are modelled as functions that
return the updated values.
-/

namespace PnpmUpgrade

/-- The three-way selection of a row.  TS: selectedOption field of
PackageSelectionState, with values none, range, latest. -/
inductive SelectedOption where
  | none
  | range
  | latest
deriving DecidableEq

/-- TS: the type field of PackageSelectionState (src/types.ts). -/
inductive DependencyType where
  | dependencies
  | devDependencies
  | optionalDependencies
  | peerDependencies
deriving DecidableEq

/-- TS: the sectionType of a header RenderableItem (src/types.ts). -/
inductive SectionType where
  | main
  | peer
  | optional
deriving DecidableEq

/-- TS interface PackageSelectionState (src/types.ts).  The optional
lazily-populated metadata fields (description, homepage, repository,
weeklyDownloads, author, license) and the optional packageJsonPaths
array are used only by the info modal and the upgrade writer, not by
any of the embedded operations, and are omitted here. -/
structure PackageSelectionState where
  name : String
  packageJsonPath : String
  currentVersionSpecifier : String
  currentVersion : String
  rangeVersion : String
  latestVersion : String
  selectedOption : SelectedOption
  hasRangeUpdate : Bool
  hasMajorUpdate : Bool
  type : DependencyType
deriving DecidableEq

/-- TS type RenderableItem (src/types.ts): a tagged union of header,
spacer and package rows. -/
inductive RenderableItem where
  | header (title : String) (sectionType : SectionType)
  | spacer
  | package (state : PackageSelectionState) (originalIndex : Nat)
deriving DecidableEq

/-- TS interface UIState (src/ui/state.ts, lines 3 to 16). -/
structure UIState where
  currentRow : Nat
  previousRow : Int
  scrollOffset : Nat
  previousScrollOffset : Nat
  maxVisibleItems : Nat
  terminalHeight : Nat
  isInitialRender : Bool
  renderedLines : List String
  renderableItems : List RenderableItem
  showInfoModal : Bool
  infoModalRow : Int
  isLoadingModalInfo : Bool
deriving DecidableEq

/-- TS: private readonly headerLines = 7 in StateManager. -/
def headerLines : Nat := 7

/-- TS: the StateManager constructor (src/ui/state.ts, lines 22 to 37). -/
def StateManager.init (initialRow : Nat) (terminalHeight : Nat) : UIState :=
  { currentRow := initialRow
    previousRow := -1
    scrollOffset := 0
    previousScrollOffset := 0
    maxVisibleItems := max 5 (terminalHeight - headerLines - 2)
    terminalHeight := terminalHeight
    isInitialRender := true
    renderedLines := []
    renderableItems := []
    showInfoModal := false
    infoModalRow := -1
    isLoadingModalInfo := false }

/-- The direction argument of StateManager.updateSelection. -/
inductive SelDirection where
  | left
  | right
deriving DecidableEq

/-- The body of StateManager.updateSelection (src/ui/state.ts, lines
184 to 221) applied to the row under the cursor: one left or right
cycling step over the selected option, skipping options whose
availability flag is false. -/
def cycleSelection (direction : SelDirection) (currentState : PackageSelectionState) :
    PackageSelectionState :=
  match direction with
  | .left =>
    match currentState.selectedOption with
    | .latest =>
      if currentState.hasRangeUpdate then { currentState with selectedOption := .range }
      else { currentState with selectedOption := .none }
    | .range => { currentState with selectedOption := .none }
    | .none =>
      if currentState.hasMajorUpdate then { currentState with selectedOption := .latest }
      else if currentState.hasRangeUpdate then { currentState with selectedOption := .range }
      else currentState
  | .right =>
    match currentState.selectedOption with
    | .none =>
      if currentState.hasRangeUpdate then { currentState with selectedOption := .range }
      else if currentState.hasMajorUpdate then { currentState with selectedOption := .latest }
      else currentState
    | .range =>
      if currentState.hasMajorUpdate then { currentState with selectedOption := .latest }
      else { currentState with selectedOption := .none }
    | .latest => { currentState with selectedOption := .none }

/-- Replace the element at a given index by the image under f, leaving
the list unchanged when the index is out of range.  Models the single
in-place write states[i] = f(states[i]) performed by the TS code. -/
def modifyAt (f : α → α) : Nat → List α → List α
  | _, [] => []
  | 0, a :: rest => f a :: rest
  | n + 1, a :: rest => a :: modifyAt f n rest

/-- TS: StateManager.updateSelection (src/ui/state.ts, lines 181 to
222).  The method reads this.uiState.currentRow, mutates only
states[currentRow], and never writes to this.uiState; the embedding
returns the (unchanged) ui state together with the updated list.  For
an out-of-range cursor the TS code would throw on reading a field of
undefined; theorems about this function assume an in-range cursor. -/
def StateManager.updateSelection (ui : UIState) (states : List PackageSelectionState)
    (direction : SelDirection) : UIState × List PackageSelectionState :=
  (ui, modifyAt (cycleSelection direction) ui.currentRow states)

/-- TS: StateManager.bulkSelectMinor (src/ui/state.ts, lines 224 to 230). -/
def StateManager.bulkSelectMinor (states : List PackageSelectionState) :
    List PackageSelectionState :=
  states.map fun state =>
    if state.hasRangeUpdate then { state with selectedOption := .range } else state

/-- TS: StateManager.bulkSelectLatest (src/ui/state.ts, lines 232 to 240). -/
def StateManager.bulkSelectLatest (states : List PackageSelectionState) :
    List PackageSelectionState :=
  states.map fun state =>
    if state.hasMajorUpdate then { state with selectedOption := .latest }
    else if state.hasRangeUpdate then { state with selectedOption := .range }
    else state

/-- TS: StateManager.bulkUnselectAll (src/ui/state.ts, lines 242 to 246). -/
def StateManager.bulkUnselectAll (states : List PackageSelectionState) :
    List PackageSelectionState :=
  states.map fun state => { state with selectedOption := .none }

/-- The selection validity invariant of the spec: range may only be
selected when hasRangeUpdate is set, latest only when hasMajorUpdate
is set. -/
def validSelection (s : PackageSelectionState) : Prop :=
  (s.selectedOption = .range → s.hasRangeUpdate = true) ∧
  (s.selectedOption = .latest → s.hasMajorUpdate = true)

instance (s : PackageSelectionState) : Decidable (validSelection s) := by
  unfold validSelection
  infer_instance

/-- One step of the session considered by the invariant claims: a
left or right cycle at some row, or one of the three bulk
operations. -/
inductive SelAction where
  | selLeft (row : Nat)
  | selRight (row : Nat)
  | bulkMinor
  | bulkLatest
  | bulkUnselect
deriving DecidableEq

/-- Apply one selection-changing step to the state list.  The cycle
steps go through StateManager.updateSelection with the cursor at the
given row. -/
def applySelAction (states : List PackageSelectionState) : SelAction → List PackageSelectionState
  | .selLeft row =>
    (StateManager.updateSelection { StateManager.init 0 24 with currentRow := row } states .left).2
  | .selRight row =>
    (StateManager.updateSelection { StateManager.init 0 24 with currentRow := row } states .right).2
  | .bulkMinor => StateManager.bulkSelectMinor states
  | .bulkLatest => StateManager.bulkSelectLatest states
  | .bulkUnselect => StateManager.bulkUnselectAll states

/-- Apply a sequence of selection-changing steps, first step first. -/
def applySelActions : List SelAction → List PackageSelectionState → List PackageSelectionState
  | [], states => states
  | a :: rest, states => applySelActions rest (applySelAction states a)

theorem validSelection_cycleSelection (d : SelDirection) (s : PackageSelectionState) :
    validSelection (cycleSelection d s) := by
  rcases s with ⟨n, p, cvs, cv, rv, lv, opt, hr, hm, t⟩
  rcases d <;> rcases opt <;> rcases hr <;> rcases hm <;>
    simp [cycleSelection, validSelection]

theorem forall_mem_modifyAt {α} {P : α → Prop} {f : α → α} (hf : ∀ a, P (f a)) :
    ∀ (n : Nat) (l : List α), (∀ a ∈ l, P a) → ∀ a ∈ modifyAt f n l, P a := by
  intro n l
  induction l generalizing n with
  | nil => intro _ a ha; simp [modifyAt] at ha
  | cons b rest ih =>
    intro h a ha
    cases n with
    | zero =>
      simp only [modifyAt, List.mem_cons] at ha
      rcases ha with rfl | ha
      · exact hf b
      · exact h a (List.mem_cons_of_mem _ ha)
    | succ m =>
      simp only [modifyAt, List.mem_cons] at ha
      rcases ha with rfl | ha
      · exact h a (List.mem_cons_self a rest)
      · exact ih m (fun x hx => h x (List.mem_cons_of_mem _ hx)) a ha

theorem validSelection_applySelAction (a : SelAction) (states : List PackageSelectionState)
    (h : ∀ s ∈ states, validSelection s) : ∀ s ∈ applySelAction states a, validSelection s := by
  cases a with
  | selLeft row =>
    exact forall_mem_modifyAt (validSelection_cycleSelection .left) row states h
  | selRight row =>
    exact forall_mem_modifyAt (validSelection_cycleSelection .right) row states h
  | bulkMinor =>
    intro s hs
    simp only [applySelAction, StateManager.bulkSelectMinor, List.mem_map] at hs
    obtain ⟨x, hx, rfl⟩ := hs
    by_cases hr : x.hasRangeUpdate
    · simp [hr, validSelection]
    · simpa [hr] using h x hx
  | bulkLatest =>
    intro s hs
    simp only [applySelAction, StateManager.bulkSelectLatest, List.mem_map] at hs
    obtain ⟨x, hx, rfl⟩ := hs
    by_cases hm : x.hasMajorUpdate
    · simp [hm, validSelection]
    · by_cases hr : x.hasRangeUpdate
      · simp [hm, hr, validSelection]
      · simpa [hm, hr] using h x hx
  | bulkUnselect =>
    intro s hs
    simp only [applySelAction, StateManager.bulkUnselectAll, List.mem_map] at hs
    obtain ⟨x, hx, rfl⟩ := hs
    simp [validSelection]

theorem validSelection_applySelActions (acts : List SelAction)
    (states : List PackageSelectionState) (h : ∀ s ∈ states, validSelection s) :
    ∀ s ∈ applySelActions acts states, validSelection s := by
  induction acts generalizing states with
  | nil => exact h
  | cons a rest ih => exact ih (applySelAction states a) (validSelection_applySelAction a states h)

/-- C1: starting from a state list in which every row satisfies the
selection validity invariant, after any sequence of updateSelection
left or right cycles (at any cursor row) and bulk operations
(bulkSelectMinor, bulkSelectLatest, bulkUnselectAll), every row still
has selectedOption among none, range, latest, selectedOption range
implies hasRangeUpdate, and selectedOption latest implies
hasMajorUpdate. -/
theorem selection_cycle_invariant (states : List PackageSelectionState)
    (acts : List SelAction) (h : ∀ s ∈ states, validSelection s) :
    ∀ s ∈ applySelActions acts states,
      (s.selectedOption = .none ∨ s.selectedOption = .range ∨ s.selectedOption = .latest) ∧
      (s.selectedOption = .range → s.hasRangeUpdate = true) ∧
      (s.selectedOption = .latest → s.hasMajorUpdate = true) := by
  intro s hs
  have hv := validSelection_applySelActions acts states h s hs
  refine ⟨?_, hv.1, hv.2⟩
  rcases s.selectedOption <;> simp

/-- A concrete package row used by several witnesses: a range update
and a major update are both available and nothing is selected yet. -/
def demoPkg : PackageSelectionState :=
  { name := "demo-pkg"
    packageJsonPath := "package.json"
    currentVersionSpecifier := "^4.1.0"
    currentVersion := "4.1.0"
    rangeVersion := "4.2.0"
    latestVersion := "5.0.0"
    selectedOption := .none
    hasRangeUpdate := true
    hasMajorUpdate := true
    type := .dependencies }

/-- A second concrete row: only a range update is available and it is
currently selected. -/
def demoPkgRangeOnly : PackageSelectionState :=
  { name := "other-pkg"
    packageJsonPath := "package.json"
    currentVersionSpecifier := "~1.2.3"
    currentVersion := "1.2.3"
    rangeVersion := "1.3.0"
    latestVersion := "1.3.0"
    selectedOption := .range
    hasRangeUpdate := true
    hasMajorUpdate := false
    type := .devDependencies }

theorem selection_cycle_invariant_witness :
    (∀ s ∈ [demoPkg, demoPkgRangeOnly], validSelection s) ∧
    ∀ s ∈ applySelActions
        [SelAction.selRight 0, SelAction.bulkLatest, SelAction.selLeft 1, SelAction.selLeft 0,
          SelAction.bulkMinor, SelAction.selRight 1, SelAction.bulkUnselect, SelAction.selLeft 0]
        [demoPkg, demoPkgRangeOnly],
      (s.selectedOption = .none ∨ s.selectedOption = .range ∨ s.selectedOption = .latest) ∧
      (s.selectedOption = .range → s.hasRangeUpdate = true) ∧
      (s.selectedOption = .latest → s.hasMajorUpdate = true) :=
  ⟨by decide, selection_cycle_invariant _ _ (by decide)⟩

theorem cycleSelection_right_left (s : PackageSelectionState) (hv : validSelection s) :
    cycleSelection .left (cycleSelection .right s) = s := by
  rcases s with ⟨n, p, cvs, cv, rv, lv, opt, hr, hm, t⟩
  rcases opt <;> rcases hr <;> rcases hm <;>
    simp_all [cycleSelection, validSelection]

theorem cycleSelection_left_right (s : PackageSelectionState) (hv : validSelection s) :
    cycleSelection .right (cycleSelection .left s) = s := by
  rcases s with ⟨n, p, cvs, cv, rv, lv, opt, hr, hm, t⟩
  rcases opt <;> rcases hr <;> rcases hm <;>
    simp_all [cycleSelection, validSelection]

theorem modifyAt_cancel {α} {f g : α → α} :
    ∀ (n : Nat) (l : List α) (h : n < l.length), f (g (l.get ⟨n, h⟩)) = l.get ⟨n, h⟩ →
      modifyAt f n (modifyAt g n l) = l := by
  intro n l
  induction l generalizing n with
  | nil => intro h; simp at h
  | cons b rest ih =>
    intro h hfg
    cases n with
    | zero => simpa [modifyAt] using hfg
    | succ m =>
      simp only [modifyAt, List.cons.injEq, true_and]
      exact ih m (by simpa using h) (by simpa using hfg)

/-- C2: for a cursor row whose selected option is available under its
flags (the validity invariant), a left cycle followed by a right
cycle, and a right cycle followed by a left cycle, both return the
state list (and hence the selected option of the cursor row) to its
original value. -/
theorem selection_cycle_left_right_roundtrip (ui : UIState)
    (states : List PackageSelectionState) (h : ui.currentRow < states.length)
    (hv : validSelection (states.get ⟨ui.currentRow, h⟩)) :
    (StateManager.updateSelection (StateManager.updateSelection ui states .left).1
        (StateManager.updateSelection ui states .left).2 .right).2 = states ∧
    (StateManager.updateSelection (StateManager.updateSelection ui states .right).1
        (StateManager.updateSelection ui states .right).2 .left).2 = states := by
  constructor
  · exact modifyAt_cancel ui.currentRow states h (cycleSelection_left_right _ hv)
  · exact modifyAt_cancel ui.currentRow states h (cycleSelection_right_left _ hv)

theorem selection_cycle_left_right_roundtrip_witness :
    (StateManager.updateSelection
        (StateManager.updateSelection (StateManager.init 0 24) [demoPkg, demoPkgRangeOnly] .left).1
        (StateManager.updateSelection (StateManager.init 0 24) [demoPkg, demoPkgRangeOnly] .left).2
        .right).2 = [demoPkg, demoPkgRangeOnly] ∧
    (StateManager.updateSelection
        (StateManager.updateSelection (StateManager.init 0 24) [demoPkg, demoPkgRangeOnly] .right).1
        (StateManager.updateSelection (StateManager.init 0 24) [demoPkg, demoPkgRangeOnly] .right).2
        .left).2 = [demoPkg, demoPkgRangeOnly] :=
  selection_cycle_left_right_roundtrip (StateManager.init 0 24) [demoPkg, demoPkgRangeOnly]
    (by decide) (by decide)

theorem modifyAt_get?_ne {α} {f : α → α} :
    ∀ (n : Nat) (l : List α) (i : Nat), i ≠ n → (modifyAt f n l).get? i = l.get? i := by
  intro n l
  induction l generalizing n with
  | nil => intro i _; simp [modifyAt]
  | cons b rest ih =>
    intro i hi
    cases n with
    | zero =>
      cases i with
      | zero => exact absurd rfl hi
      | succ j => simp [modifyAt]
    | succ m =>
      cases i with
      | zero => simp [modifyAt]
      | succ j => simpa [modifyAt] using ih m j (by omega)

/-- C10: updateSelection touches at most the row at the cursor: the
returned ui state (cursor position, scroll offset and all other ui
fields) is the input ui state, and every row other than the cursor
row is returned entirely unchanged. -/
theorem updateSelection_frame (ui : UIState) (states : List PackageSelectionState)
    (direction : SelDirection) (h : ui.currentRow < states.length) :
    (StateManager.updateSelection ui states direction).1 = ui ∧
    ∀ i : Nat, i ≠ ui.currentRow →
      (StateManager.updateSelection ui states direction).2.get? i = states.get? i := by
  refine ⟨rfl, fun i hi => ?_⟩
  exact modifyAt_get?_ne ui.currentRow states i hi

theorem updateSelection_frame_witness :
    (StateManager.updateSelection (StateManager.init 0 24) [demoPkg, demoPkgRangeOnly] .right).1 =
      StateManager.init 0 24 ∧
    ∀ i : Nat, i ≠ (StateManager.init 0 24).currentRow →
      (StateManager.updateSelection (StateManager.init 0 24) [demoPkg, demoPkgRangeOnly]
          .right).2.get? i = [demoPkg, demoPkgRangeOnly].get? i :=
  updateSelection_frame (StateManager.init 0 24) [demoPkg, demoPkgRangeOnly] .right (by decide)

/-- The loop inside StateManager.packageIndexToVisualIndex
(src/ui/state.ts, lines 55 to 61): scan the renderable items for the
package item carrying the given original index and return its visual
position, or 0 when it is not found. -/
def findVisualIndexAux (packageIndex : Nat) : List RenderableItem → Nat → Nat
  | [], _ => 0
  | .package _ originalIndex :: rest, i =>
    if originalIndex = packageIndex then i else findVisualIndexAux packageIndex rest (i + 1)
  | .header _ _ :: rest, i => findVisualIndexAux packageIndex rest (i + 1)
  | .spacer :: rest, i => findVisualIndexAux packageIndex rest (i + 1)

/-- TS: StateManager.packageIndexToVisualIndex (src/ui/state.ts,
lines 48 to 62). -/
def StateManager.packageIndexToVisualIndex (ui : UIState) (packageIndex : Nat) : Nat :=
  if ui.renderableItems.length = 0 then packageIndex
  else findVisualIndexAux packageIndex ui.renderableItems 0

theorem findVisualIndexAux_bound (packageIndex : Nat) :
    ∀ (items : List RenderableItem) (i : Nat),
      findVisualIndexAux packageIndex items i = 0 ∨
        findVisualIndexAux packageIndex items i < i + items.length := by
  intro items
  induction items with
  | nil => intro i; left; rfl
  | cons a rest ih =>
    intro i
    cases a with
    | package st oi =>
      by_cases hoi : oi = packageIndex
      · right
        simp only [findVisualIndexAux, hoi, if_true, List.length_cons]
        omega
      · have hstep : findVisualIndexAux packageIndex (RenderableItem.package st oi :: rest) i =
            findVisualIndexAux packageIndex rest (i + 1) := by
          simp [findVisualIndexAux, hoi]
        rcases ih (i + 1) with h0 | hlt
        · left; omega
        · right; simp only [List.length_cons]; omega
    | header title sectionType =>
      have hstep : findVisualIndexAux packageIndex
            (RenderableItem.header title sectionType :: rest) i =
          findVisualIndexAux packageIndex rest (i + 1) := rfl
      rcases ih (i + 1) with h0 | hlt
      · left; omega
      · right; simp only [List.length_cons]; omega
    | spacer =>
      have hstep : findVisualIndexAux packageIndex (RenderableItem.spacer :: rest) i =
          findVisualIndexAux packageIndex rest (i + 1) := rfl
      rcases ih (i + 1) with h0 | hlt
      · left; omega
      · right; simp only [List.length_cons]; omega

/-- The optional-chaining test prevItem?.type === header used by
ensureVisible. -/
def isHeaderItem : Option RenderableItem → Bool
  | some (.header _ _) => true
  | _ => false

/-- The optional-chaining test prevItem?.type === spacer used by
ensureVisible. -/
def isSpacerItem : Option RenderableItem → Bool
  | some .spacer => true
  | _ => false

/-- TS: StateManager.ensureVisible (src/ui/state.ts, lines 133 to
179).  All three JS subtractions in the scroll branch are guarded so
that they are nonnegative, hence truncated Nat subtraction coincides
with the JS value; the final clamp Math.max(0, Math.min(so,
Math.max(0, total - maxVisibleItems))) is written with the same shape
over Nat. -/
def StateManager.ensureVisible (ui : UIState) (packageIndex totalPackages : Nat) : UIState :=
  let visualIndex := StateManager.packageIndexToVisualIndex ui packageIndex
  let totalVisualItems :=
    if ui.renderableItems.length = 0 then totalPackages else ui.renderableItems.length
  let targetVisualIndex :=
    if 0 < visualIndex then
      if isHeaderItem (ui.renderableItems.get? (visualIndex - 1)) then visualIndex - 1
      else if 1 < visualIndex then
        if isSpacerItem (ui.renderableItems.get? (visualIndex - 1)) &&
            isHeaderItem (ui.renderableItems.get? (visualIndex - 2)) then
          max 0 (visualIndex - 2)
        else visualIndex
      else visualIndex
    else visualIndex
  let scroll1 :=
    if targetVisualIndex < ui.scrollOffset then targetVisualIndex
    else if ui.scrollOffset + ui.maxVisibleItems ≤ visualIndex then
      if visualIndex - targetVisualIndex + 1 ≤ ui.maxVisibleItems then targetVisualIndex
      else visualIndex - ui.maxVisibleItems + 1
    else ui.scrollOffset
  let scroll2 := max 0 (min scroll1 (max 0 (totalVisualItems - ui.maxVisibleItems)))
  { ui with scrollOffset := scroll2 }

/-- C5: for a valid cursor package index the scroll offset computed
by ensureVisible (with the viewport capacity invariant maintained by
the constructor and updateTerminalHeight, maxVisibleItems at least 5)
puts the visual index of the cursor row inside the window
[scrollOffset, scrollOffset + maxVisibleItems) and stays within
[0, max 0 (totalVisualRows - maxVisibleItems)] (0 and truncated
subtraction over Nat). -/
theorem ensureVisible_keeps_cursor_visible (ui : UIState) (packageIndex totalPackages : Nat)
    (hm : 5 ≤ ui.maxVisibleItems) (hp : packageIndex < totalPackages) :
    (StateManager.ensureVisible ui packageIndex totalPackages).scrollOffset ≤
        StateManager.packageIndexToVisualIndex ui packageIndex ∧
    StateManager.packageIndexToVisualIndex ui packageIndex <
        (StateManager.ensureVisible ui packageIndex totalPackages).scrollOffset +
          ui.maxVisibleItems ∧
    (StateManager.ensureVisible ui packageIndex totalPackages).scrollOffset ≤
      (if ui.renderableItems.length = 0 then totalPackages else ui.renderableItems.length) -
        ui.maxVisibleItems := by
  have hv : StateManager.packageIndexToVisualIndex ui packageIndex <
      (if ui.renderableItems.length = 0 then totalPackages else ui.renderableItems.length) := by
    by_cases hflat : ui.renderableItems.length = 0
    · simpa [StateManager.packageIndexToVisualIndex, hflat] using hp
    · rcases findVisualIndexAux_bound packageIndex ui.renderableItems 0 with h0 | hlt
      · simp only [StateManager.packageIndexToVisualIndex, hflat, if_false, h0]
        omega
      · simp only [StateManager.packageIndexToVisualIndex, hflat, if_false]
        omega
  simp only [StateManager.ensureVisible]
  split_ifs at hv ⊢ <;> omega

/-- A concrete grouped renderable list used by witnesses: a section
header, a package row, a spacer, a second header and a second package
row. -/
def demoItems : List RenderableItem :=
  [RenderableItem.header "Dependencies" .main,
    RenderableItem.package demoPkg 0,
    RenderableItem.spacer,
    RenderableItem.header "Dev Dependencies" .main,
    RenderableItem.package demoPkgRangeOnly 1]

/-- A concrete grouped ui state used by witnesses. -/
def demoUI : UIState :=
  { StateManager.init 0 24 with renderableItems := demoItems, scrollOffset := 3 }

theorem ensureVisible_keeps_cursor_visible_witness :
    (StateManager.ensureVisible demoUI 1 2).scrollOffset ≤
        StateManager.packageIndexToVisualIndex demoUI 1 ∧
    StateManager.packageIndexToVisualIndex demoUI 1 <
        (StateManager.ensureVisible demoUI 1 2).scrollOffset + demoUI.maxVisibleItems ∧
    (StateManager.ensureVisible demoUI 1 2).scrollOffset ≤
      (if demoUI.renderableItems.length = 0 then 2 else demoUI.renderableItems.length) -
        demoUI.maxVisibleItems :=
  ensureVisible_keeps_cursor_visible demoUI 1 2 (by decide) (by decide)

/-- TS: StateManager.updateTerminalHeight (src/ui/state.ts, lines 107
to 119): recompute the capacity from the new height, store the new
height and capacity and return true when either the height or the
capacity differs from the stored value, otherwise change nothing and
return false. -/
def StateManager.updateTerminalHeight (ui : UIState) (newHeight : Nat) : Bool × UIState :=
  let newMaxVisibleItems := max 5 (newHeight - headerLines - 2)
  if newHeight ≠ ui.terminalHeight ∨ newMaxVisibleItems ≠ ui.maxVisibleItems then
    (true, { ui with terminalHeight := newHeight, maxVisibleItems := newMaxVisibleItems })
  else (false, ui)

/-- C7 counterexample: with stored terminal height 10 the capacity is
max 5 (10 - 9) = 5; updateTerminalHeight 11 recomputes the same
capacity 5, so the capacity does not change, yet the call returns
true because the height changed.  This refutes the claim that the
return value is true if and only if the capacity changed. -/
theorem updateTerminalHeight_not_iff_capacity :
    ¬(((StateManager.updateTerminalHeight (StateManager.init 0 10) 11).1 = true) ↔
      (StateManager.updateTerminalHeight (StateManager.init 0 10) 11).2.maxVisibleItems ≠
        (StateManager.init 0 10).maxVisibleItems) := by decide

/-- C7 amended: updateTerminalHeight always leaves the capacity equal
to max 5 (newHeight minus the fixed chrome budget of headerLines + 2
= 9 lines), and returns true if and only if the terminal height or
the capacity changed from its stored value. -/
theorem updateTerminalHeight_recompute_and_report (ui : UIState) (newHeight : Nat) :
    (StateManager.updateTerminalHeight ui newHeight).2.maxVisibleItems =
      max 5 (newHeight - headerLines - 2) ∧
    ((StateManager.updateTerminalHeight ui newHeight).1 = true ↔
      (newHeight ≠ ui.terminalHeight ∨
        max 5 (newHeight - headerLines - 2) ≠ ui.maxVisibleItems)) := by
  by_cases h : newHeight ≠ ui.terminalHeight ∨
      max 5 (newHeight - headerLines - 2) ≠ ui.maxVisibleItems
  · simp [StateManager.updateTerminalHeight, h]
  · push_neg at h
    obtain ⟨h1, h2⟩ := h
    subst h1
    simp [StateManager.updateTerminalHeight, h2]

/-- The direction argument of StateManager.navigateUp / navigateDown. -/
inductive NavDirection where
  | up
  | down
deriving DecidableEq

/-- The packageItems collection loop of
StateManager.findNextPackageIndex (src/ui/state.ts, lines 82 to 89):
the (visualIndex, packageIndex) pairs of the package rows of the
renderable list, in visual order. -/
def collectPackageItems : List RenderableItem → Nat → List (Nat × Nat)
  | [], _ => []
  | .package _ originalIndex :: rest, i => (i, originalIndex) :: collectPackageItems rest (i + 1)
  | .header _ _ :: rest, i => collectPackageItems rest (i + 1)
  | .spacer :: rest, i => collectPackageItems rest (i + 1)

/-- JS Array.prototype.findIndex, returning none instead of -1. -/
def findIndexAux (p : α → Bool) : List α → Nat → Option Nat
  | [], _ => Option.none
  | a :: rest, i => if p a then Option.some i else findIndexAux p rest (i + 1)

/-- The last element of a list, or the default for the empty list
(the shape of JS packageItems[packageItems.length - 1]). -/
def lastD (d : α) : List α → α
  | [] => d
  | [a] => a
  | _ :: b :: rest => lastD d (b :: rest)

/-- TS: StateManager.findNextPackageIndex (src/ui/state.ts, lines 64
to 105): flat fallback arithmetic when there are no renderable items,
otherwise a scan over the package rows with wrap-around at both
ends. -/
def StateManager.findNextPackageIndex (ui : UIState) (currentPackageIndex : Nat)
    (direction : NavDirection) (totalPackages : Nat) : Nat :=
  if ui.renderableItems.length = 0 then
    match direction with
    | .up => if currentPackageIndex ≤ 0 then totalPackages - 1 else currentPackageIndex - 1
    | .down => if totalPackages - 1 ≤ currentPackageIndex then 0 else currentPackageIndex + 1
  else
    match collectPackageItems ui.renderableItems 0 with
    | [] => currentPackageIndex
    | p0 :: rest =>
      match findIndexAux (fun p => p.2 == currentPackageIndex) (p0 :: rest) 0 with
      | Option.none => p0.2
      | Option.some currentPos =>
        match direction with
        | .up =>
          let newPos := if currentPos ≤ 0 then (p0 :: rest).length - 1 else currentPos - 1
          ((p0 :: rest).getD newPos p0).2
        | .down =>
          let newPos := if (p0 :: rest).length - 1 ≤ currentPos then 0 else currentPos + 1
          ((p0 :: rest).getD newPos p0).2

/-- TS: StateManager.navigateUp (src/ui/state.ts, lines 121 to 125). -/
def StateManager.navigateUp (ui : UIState) (totalItems : Nat) : UIState :=
  let newRow := StateManager.findNextPackageIndex ui ui.currentRow .up totalItems
  let ui1 := { ui with previousRow := (ui.currentRow : Int), currentRow := newRow }
  StateManager.ensureVisible ui1 newRow totalItems

/-- TS: StateManager.navigateDown (src/ui/state.ts, lines 127 to 131). -/
def StateManager.navigateDown (ui : UIState) (totalItems : Nat) : UIState :=
  let newRow := StateManager.findNextPackageIndex ui ui.currentRow .down totalItems
  let ui1 := { ui with previousRow := (ui.currentRow : Int), currentRow := newRow }
  StateManager.ensureVisible ui1 newRow totalItems

theorem navigateUp_currentRow (ui : UIState) (n : Nat) :
    (StateManager.navigateUp ui n).currentRow =
      StateManager.findNextPackageIndex ui ui.currentRow .up n := rfl

theorem navigateDown_currentRow (ui : UIState) (n : Nat) :
    (StateManager.navigateDown ui n).currentRow =
      StateManager.findNextPackageIndex ui ui.currentRow .down n := rfl

theorem mem_collectPackageItems {q : Nat × Nat} :
    ∀ (items : List RenderableItem) (i : Nat), q ∈ collectPackageItems items i →
      ∃ st, RenderableItem.package st q.2 ∈ items := by
  intro items
  induction items with
  | nil => intro i h; simp [collectPackageItems] at h
  | cons a rest ih =>
    intro i h
    cases a with
    | package st oi =>
      simp only [collectPackageItems, List.mem_cons] at h
      rcases h with rfl | hq
      · exact ⟨st, by simp⟩
      · obtain ⟨st2, hst2⟩ := ih (i + 1) hq
        exact ⟨st2, List.mem_cons_of_mem _ hst2⟩
    | header title sectionType =>
      obtain ⟨st2, hst2⟩ := ih (i + 1) (by simpa [collectPackageItems] using h)
      exact ⟨st2, List.mem_cons_of_mem _ hst2⟩
    | spacer =>
      obtain ⟨st2, hst2⟩ := ih (i + 1) (by simpa [collectPackageItems] using h)
      exact ⟨st2, List.mem_cons_of_mem _ hst2⟩

theorem getD_mem_or_eq {α} (d : α) :
    ∀ (l : List α) (n : Nat), l.getD n d ∈ l ∨ l.getD n d = d := by
  intro l
  induction l with
  | nil => intro n; right; cases n <;> rfl
  | cons a rest ih =>
    intro n
    cases n with
    | zero => left; simp
    | succ m =>
      rcases ih m with h | h
      · left
        simpa using List.mem_cons_of_mem a (by simpa using h)
      · right; simpa using h

theorem lastD_irrel {α} (d1 d2 : α) :
    ∀ (l : List α), l ≠ [] → lastD d1 l = lastD d2 l := by
  intro l
  induction l with
  | nil => intro h; exact absurd rfl h
  | cons a rest ih =>
    intro _
    cases rest with
    | nil => rfl
    | cons b rest2 => simpa [lastD] using ih (by simp)

theorem lastD_mem {α} (d : α) :
    ∀ (l : List α), l ≠ [] → lastD d l ∈ l := by
  intro l
  induction l with
  | nil => intro h; exact absurd rfl h
  | cons a rest ih =>
    intro _
    cases rest with
    | nil => simp [lastD]
    | cons b rest2 =>
      have := ih (by simp)
      simp only [lastD] at this ⊢
      exact List.mem_cons_of_mem a this

theorem getD_length_pred {α} (d : α) :
    ∀ (l : List α), l ≠ [] → l.getD (l.length - 1) d = lastD d l := by
  intro l
  induction l with
  | nil => intro h; exact absurd rfl h
  | cons a rest ih =>
    intro _
    cases rest with
    | nil => rfl
    | cons b rest2 =>
      have hlen : (a :: b :: rest2).length - 1 = (b :: rest2).length - 1 + 1 := by
        simp
      rw [hlen, List.getD_cons_succ]
      simpa [lastD] using ih (by simp)

theorem findIndexAux_head {α} (p : α → Bool) (a : α) (l : List α) (i : Nat) (h : p a = true) :
    findIndexAux p (a :: l) i = Option.some i := by
  simp [findIndexAux, h]

theorem findIndexAux_cons {α} (p : α → Bool) (a : α) (l : List α) (i : Nat) :
    findIndexAux p (a :: l) i =
      if p a then Option.some i else findIndexAux p l (i + 1) := rfl

theorem findIndexAux_last :
    ∀ (l : List (Nat × Nat)), l ≠ [] → (l.map Prod.snd).Nodup → ∀ i : Nat,
      findIndexAux (fun p => p.2 == (lastD (0, 0) l).2) l i = Option.some (i + (l.length - 1)) := by
  intro l
  induction l with
  | nil => intro h; exact absurd rfl h
  | cons a rest ih =>
    intro _ hnd i
    cases rest with
    | nil => simp [findIndexAux, lastD]
    | cons b rest2 =>
      have hlast : lastD (0, 0) (a :: b :: rest2) = lastD (0, 0) (b :: rest2) := rfl
      have hmem : (lastD (0, 0) (b :: rest2)).2 ∈ (b :: rest2).map Prod.snd :=
        List.mem_map_of_mem Prod.snd (lastD_mem (0, 0) (b :: rest2) (by simp))
      have hnd2 : (a.2 :: (b :: rest2).map Prod.snd).Nodup := by
        simpa only [List.map_cons] using hnd
      have hane : a.2 ≠ (lastD (0, 0) (b :: rest2)).2 := by
        intro hcontra
        exact (List.nodup_cons.mp hnd2).1 (hcontra ▸ hmem)
      have hpa : (a.2 == (lastD (0, 0) (b :: rest2)).2) = false :=
        beq_eq_false_iff_ne.mpr hane
      have hrec := ih (by simp) (List.nodup_cons.mp hnd2).2 (i + 1)
      rw [hlast, findIndexAux_cons]
      simp only [hpa, Bool.false_eq_true, if_false]
      rw [hrec]
      congr 1
      simp only [List.length_cons]
      omega

/-- C6: navigateUp and navigateDown only ever move the cursor to a
package row.  In flat mode (no renderable items) every index below
totalPackages is a package row, the cursor stays in range, moving up
from the first row wraps to the last and moving down from the last
row wraps to the first.  In grouped mode (package rows present among
headers and spacers, with distinct original indices as produced by
the grouping code) the new cursor is the original index of some
package renderable item — never a header or spacer — and moving up
from the first package row wraps to the last package row and moving
down from the last wraps to the first. -/
theorem navigation_targets_package_rows (ui : UIState) (totalPackages : Nat)
    (hrow : ui.currentRow < totalPackages) (hpos : 0 < totalPackages)
    (hnodup : ((collectPackageItems ui.renderableItems 0).map Prod.snd).Nodup) :
    (ui.renderableItems = [] →
      (StateManager.navigateUp ui totalPackages).currentRow < totalPackages ∧
      (StateManager.navigateDown ui totalPackages).currentRow < totalPackages ∧
      (ui.currentRow = 0 →
        (StateManager.navigateUp ui totalPackages).currentRow = totalPackages - 1) ∧
      (ui.currentRow = totalPackages - 1 →
        (StateManager.navigateDown ui totalPackages).currentRow = 0)) ∧
    (collectPackageItems ui.renderableItems 0 ≠ [] →
      (∃ st, RenderableItem.package st (StateManager.navigateUp ui totalPackages).currentRow ∈
          ui.renderableItems) ∧
      (∃ st, RenderableItem.package st (StateManager.navigateDown ui totalPackages).currentRow ∈
          ui.renderableItems) ∧
      (ui.currentRow = ((collectPackageItems ui.renderableItems 0).headD (0, 0)).2 →
        (StateManager.navigateUp ui totalPackages).currentRow =
          (lastD (0, 0) (collectPackageItems ui.renderableItems 0)).2) ∧
      (ui.currentRow = (lastD (0, 0) (collectPackageItems ui.renderableItems 0)).2 →
        (StateManager.navigateDown ui totalPackages).currentRow =
          ((collectPackageItems ui.renderableItems 0).headD (0, 0)).2)) := by
  constructor
  · intro hflat
    rw [navigateUp_currentRow, navigateDown_currentRow]
    simp only [StateManager.findNextPackageIndex, hflat, List.length_nil, if_true]
    refine ⟨?_, ?_, ?_, ?_⟩
    · split_ifs <;> omega
    · split_ifs <;> omega
    · intro h0; simp [h0]
    · intro hlastRow
      have : totalPackages - 1 ≤ ui.currentRow := by omega
      simp [this]
  · intro hne
    have hitems : ¬ ui.renderableItems.length = 0 := by
      intro hlen
      rw [List.length_eq_zero] at hlen
      exact hne (by simp [hlen, collectPackageItems])
    obtain ⟨p0, rest, hp⟩ : ∃ p0 rest, collectPackageItems ui.renderableItems 0 = p0 :: rest := by
      rcases hcoll : collectPackageItems ui.renderableItems 0 with _ | ⟨p0, rest⟩
      · exact absurd hcoll hne
      · exact ⟨p0, rest, rfl⟩
    rw [navigateUp_currentRow, navigateDown_currentRow]
    simp only [StateManager.findNextPackageIndex, hitems, if_false, hp]
    have hmemResult : ∀ x : Option Nat,
        (match x with
          | Option.none => p0.2
          | Option.some currentPos =>
            ((p0 :: rest).getD
              (if currentPos ≤ 0 then (p0 :: rest).length - 1 else currentPos - 1) p0).2) = p0.2 ∨
        ∃ q ∈ p0 :: rest,
          (match x with
            | Option.none => p0.2
            | Option.some currentPos =>
              ((p0 :: rest).getD
                (if currentPos ≤ 0 then (p0 :: rest).length - 1 else currentPos - 1) p0).2) =
            q.2 := by
      intro x
      cases x with
      | none => left; rfl
      | some pos =>
        dsimp only
        rcases getD_mem_or_eq p0 (p0 :: rest)
            (if pos ≤ 0 then (p0 :: rest).length - 1 else pos - 1) with hmem | heq
        · right; exact ⟨_, hmem, rfl⟩
        · left; rw [heq]
    have hmemResultD : ∀ x : Option Nat,
        (match x with
          | Option.none => p0.2
          | Option.some currentPos =>
            ((p0 :: rest).getD
              (if (p0 :: rest).length - 1 ≤ currentPos then 0 else currentPos + 1) p0).2) = p0.2 ∨
        ∃ q ∈ p0 :: rest,
          (match x with
            | Option.none => p0.2
            | Option.some currentPos =>
              ((p0 :: rest).getD
                (if (p0 :: rest).length - 1 ≤ currentPos then 0 else currentPos + 1) p0).2) =
            q.2 := by
      intro x
      cases x with
      | none => left; rfl
      | some pos =>
        dsimp only
        rcases getD_mem_or_eq p0 (p0 :: rest)
            (if (p0 :: rest).length - 1 ≤ pos then 0 else pos + 1) with hmem | heq
        · right; exact ⟨_, hmem, rfl⟩
        · left; rw [heq]
    have hmemOfPair : ∀ q : Nat × Nat, q ∈ p0 :: rest →
        ∃ st, RenderableItem.package st q.2 ∈ ui.renderableItems := by
      intro q hq
      exact mem_collectPackageItems ui.renderableItems 0 (hp ▸ hq)
    refine ⟨?_, ?_, ?_, ?_⟩
    · rcases hmemResult (findIndexAux (fun p => p.2 == ui.currentRow) (p0 :: rest) 0) with
        heq | ⟨q, hq, heq⟩
      · rw [heq]; exact hmemOfPair p0 (by simp)
      · rw [heq]; exact hmemOfPair q hq
    · rcases hmemResultD (findIndexAux (fun p => p.2 == ui.currentRow) (p0 :: rest) 0) with
        heq | ⟨q, hq, heq⟩
      · rw [heq]; exact hmemOfPair p0 (by simp)
      · rw [heq]; exact hmemOfPair q hq
    · intro hcur
      have hhead : ((p0 :: rest).headD ((0 : Nat), (0 : Nat))).2 = p0.2 := rfl
      rw [hhead] at hcur
      rw [hcur]
      have hfi : findIndexAux (fun p => p.2 == p0.2) (p0 :: rest) 0 = Option.some 0 :=
        findIndexAux_head _ p0 rest 0 (by simp)
      rw [hfi]
      dsimp only
      rw [if_pos (Nat.le_refl 0)]
      have hgd : (p0 :: rest).getD ((p0 :: rest).length - 1) p0 = lastD p0 (p0 :: rest) :=
        getD_length_pred p0 (p0 :: rest) (by simp)
      rw [hgd, lastD_irrel p0 (0, 0) (p0 :: rest) (by simp)]
    · intro hcur
      rw [hp] at hnodup
      rw [hcur]
      have hfi := findIndexAux_last (p0 :: rest) (by simp) hnodup 0
      rw [hfi]
      dsimp only
      rw [if_pos (by omega : (p0 :: rest).length - 1 ≤ 0 + ((p0 :: rest).length - 1))]
      rfl

theorem navigation_targets_package_rows_witness :
    (demoUI.renderableItems = [] →
      (StateManager.navigateUp demoUI 2).currentRow < 2 ∧
      (StateManager.navigateDown demoUI 2).currentRow < 2 ∧
      (demoUI.currentRow = 0 → (StateManager.navigateUp demoUI 2).currentRow = 2 - 1) ∧
      (demoUI.currentRow = 2 - 1 → (StateManager.navigateDown demoUI 2).currentRow = 0)) ∧
    (collectPackageItems demoUI.renderableItems 0 ≠ [] →
      (∃ st, RenderableItem.package st (StateManager.navigateUp demoUI 2).currentRow ∈
          demoUI.renderableItems) ∧
      (∃ st, RenderableItem.package st (StateManager.navigateDown demoUI 2).currentRow ∈
          demoUI.renderableItems) ∧
      (demoUI.currentRow = ((collectPackageItems demoUI.renderableItems 0).headD (0, 0)).2 →
        (StateManager.navigateUp demoUI 2).currentRow =
          (lastD (0, 0) (collectPackageItems demoUI.renderableItems 0)).2) ∧
      (demoUI.currentRow = (lastD (0, 0) (collectPackageItems demoUI.renderableItems 0)).2 →
        (StateManager.navigateDown demoUI 2).currentRow =
          ((collectPackageItems demoUI.renderableItems 0).headD (0, 0)).2)) :=
  navigation_targets_package_rows demoUI 2 (by decide) (by decide) (by decide)

/-- TS: the InputAction union type (src/ui/input-handler.ts). -/
inductive InputAction where
  | navigate_up
  | navigate_down
  | select_left
  | select_right
  | confirm
  | bulk_select_minor
  | bulk_select_latest
  | bulk_unselect_all
  | toggle_info_modal
  | cancel
  | resize (height : Nat)
deriving DecidableEq

/-- The observable effect of one InputHandler.handleKeypress call,
abstracted from its injected callbacks: forward an action to the
dispatcher, print the no-selection warning and return without any
callback and without touching the states, or clean up and invoke the
confirm callback with the state list.  Ctrl-C calls process.exit and
unmapped keys fall through the switch; both leave the session state
untouched and are folded into the ignored case. -/
inductive KeypressEffect where
  | dispatched (action : InputAction)
  | warnedNoSelection
  | confirmed (finalStates : List PackageSelectionState)
  | ignored
deriving DecidableEq

/-- TS: InputHandler.handleKeypress (the switch over key.name in
src/ui/input-handler.ts, lines 37 to 99), keyed by the symbolic key
name. -/
def InputHandler.handleKeypress (keyName : String) (states : List PackageSelectionState) :
    KeypressEffect :=
  if keyName = "up" then .dispatched .navigate_up
  else if keyName = "down" then .dispatched .navigate_down
  else if keyName = "left" then .dispatched .select_left
  else if keyName = "right" then .dispatched .select_right
  else if keyName = "return" then
    if (states.filter fun s => decide (s.selectedOption ≠ SelectedOption.none)).length = 0 then
      .warnedNoSelection
    else .confirmed states
  else if keyName = "m" ∨ keyName = "M" then .dispatched .bulk_select_minor
  else if keyName = "l" ∨ keyName = "L" then .dispatched .bulk_select_latest
  else if keyName = "u" ∨ keyName = "U" then .dispatched .bulk_unselect_all
  else if keyName = "i" ∨ keyName = "I" then .dispatched .toggle_info_modal
  else if keyName = "escape" then .dispatched .toggle_info_modal
  else .ignored

/-- C4: pressing Enter while zero rows have a selection prints the
transient warning and returns before the cleanup and confirm
callback, so nothing is resolved and no state changes and the
selection loop continues; with at least one selected row it confirms
with the current state list. -/
theorem enter_requires_nonempty_selection (states : List PackageSelectionState) :
    ((∀ s ∈ states, s.selectedOption = SelectedOption.none) →
      InputHandler.handleKeypress "return" states = .warnedNoSelection) ∧
    ((∃ s ∈ states, s.selectedOption ≠ SelectedOption.none) →
      InputHandler.handleKeypress "return" states = .confirmed states) := by
  constructor
  · intro h
    simp [InputHandler.handleKeypress]
    exact h
  · rintro ⟨s, hs, hne⟩
    simp [InputHandler.handleKeypress]
    exact ⟨s, hs, hne⟩

/-- A state list with some selections, used by the input theorems. -/
def demoSelectedStates : List PackageSelectionState :=
  [{ demoPkg with selectedOption := SelectedOption.latest }, demoPkgRangeOnly]

/-- A state list in which nothing is selected. -/
def demoAllNoneStates : List PackageSelectionState :=
  [demoPkg, { demoPkgRangeOnly with selectedOption := SelectedOption.none }]

theorem enter_requires_nonempty_selection_witness :
    InputHandler.handleKeypress "return" demoAllNoneStates = .warnedNoSelection ∧
    InputHandler.handleKeypress "return" demoSelectedStates = .confirmed demoSelectedStates :=
  ⟨(enter_requires_nonempty_selection demoAllNoneStates).1 (by decide),
    (enter_requires_nonempty_selection demoSelectedStates).2 (by decide)⟩

/-- The observable resolution effect of one escape keypress in the
interactiveTableSelector loop of the modular InteractiveUI. -/
inductive EscapeOutcome where
  | modalOpened
  | modalClosed
  | sessionCancelled (resolvedStates : List PackageSelectionState)
  | noEffect
deriving DecidableEq

/-- TS: the handleCancel closure of
InteractiveUI.interactiveTableSelector: restore the terminal and
resolve the session promise with every selectedOption forced to none
(the same resolution the escape case of the legacy monolithic
interactive-ui.ts performs directly). -/
def InteractiveUI.handleCancel (states : List PackageSelectionState) :
    List PackageSelectionState :=
  states.map fun s => { s with selectedOption := SelectedOption.none }

/-- TS: the toggle_info_modal and cancel cases of the handleAction
closure of InteractiveUI.interactiveTableSelector: toggle_info_modal
opens the info modal when it is closed (setting the loading flag and
starting the async metadata fetch) and closes it when it is open;
cancel invokes handleCancel.  No other action opens, closes or
cancels anything. -/
def InteractiveUI.actionModalEffect (showInfoModal : Bool)
    (states : List PackageSelectionState) : InputAction → EscapeOutcome
  | .toggle_info_modal => if showInfoModal then .modalClosed else .modalOpened
  | .cancel => .sessionCancelled (InteractiveUI.handleCancel states)
  | _ => .noEffect

/-- The composition executed when the user presses Escape in the
selection view: InputHandler.handleKeypress maps the escape key to an
action, which handleAction then interprets against the current modal
state. -/
def InteractiveUI.escapeKeyOutcome (showInfoModal : Bool)
    (states : List PackageSelectionState) : EscapeOutcome :=
  match InputHandler.handleKeypress "escape" states with
  | .dispatched a => InteractiveUI.actionModalEffect showInfoModal states a
  | _ => .noEffect

/-- C3: evaluation of the escape path at the failing input.  With the
modal closed, the escape key dispatches toggle_info_modal, which
opens the info modal — the session is not cancelled, no key ever
dispatches the cancel action, contradicting the inline comment on the
escape case and the spec.  With the modal open, escape does close the
modal.  The cancellation path itself, were it reached, resets every
selection to none before resolving. -/
theorem escape_opens_modal_instead_of_cancel :
    InteractiveUI.escapeKeyOutcome false demoSelectedStates = EscapeOutcome.modalOpened ∧
    InteractiveUI.escapeKeyOutcome true demoSelectedStates = EscapeOutcome.modalClosed ∧
    InteractiveUI.handleCancel demoSelectedStates = demoAllNoneStates ∧
    ∀ s ∈ InteractiveUI.handleCancel demoSelectedStates,
      s.selectedOption = SelectedOption.none := by
  refine ⟨by decide, by decide, ?_, by decide⟩
  decide

/-- TS: VersionUtils.applyVersionPrefix (src/ui/utils.ts, lines 4 to
11): the anchored regex match ^([^0-9]+) takes the longest leading
run of non-digit characters of the original specifier (empty when
the specifier starts with a digit) and prepends it to the target
version. -/
def VersionUtils.applyVersionPrefix (originalSpecifier targetVersion : String) : String :=
  String.mk (originalSpecifier.data.takeWhile fun c => ¬ c.isDigit) ++ targetVersion

/-- Consume the [0-9;]* body of an ANSI escape sequence up to the
closing m, or fail when the sequence does not match the regex. -/
def skipAnsiBody : List Char → Option (List Char)
  | [] => Option.none
  | c :: rest =>
    if c = 'm' then Option.some rest
    else if c.isDigit ∨ c = ';' then skipAnsiBody rest
    else Option.none

/-- The global regex replace of ESC [ [0-9;]* m by the empty string
used by stripAnsi / getVisualLength, as a left-to-right scan over the
character list.  The fuel argument, always instantiated with the
length of the list, makes the recursion structural; every step
consumes at least one character, so the fuel never runs out. -/
def stripAnsiAux : Nat → List Char → List Char
  | 0, l => l
  | _ + 1, [] => []
  | fuel + 1, c :: rest =>
    if c = '\x1b' then
      match rest with
      | '[' :: rest2 =>
        match skipAnsiBody rest2 with
        | Option.some rest3 => stripAnsiAux fuel rest3
        | Option.none => c :: stripAnsiAux fuel rest
      | _ => c :: stripAnsiAux fuel rest
    else c :: stripAnsiAux fuel rest

/-- TS: VersionUtils.getVisualLength (src/ui/utils.ts, lines 13 to
16): the length after stripping ANSI escape sequences. -/
def VersionUtils.getVisualLength (s : String) : Nat :=
  (stripAnsiAux s.data.length s.data).length

/-- Is the first list a prefix of the second? -/
def charListPrefixOf : List Char → List Char → Bool
  | [], _ => true
  | _ :: _, [] => false
  | a :: as, b :: bs => a == b && charListPrefixOf as bs

/-- Left-to-right non-overlapping replace-all over character lists
(the stringReplaceAll helper chalk uses to re-open nested styles).
The fuel argument, always instantiated with the length of the list,
makes the recursion structural; the pattern is always a nonempty
close code, so every step consumes at least one character. -/
def replaceAllCharsAux (pat repl : List Char) : Nat → List Char → List Char
  | 0, l => l
  | _ + 1, [] => []
  | fuel + 1, c :: rest =>
    if charListPrefixOf pat (c :: rest) then
      repl ++ replaceAllCharsAux pat repl fuel (rest.drop (pat.length - 1))
    else c :: replaceAllCharsAux pat repl fuel rest

def replaceAllChars (pat repl s : List Char) : List Char :=
  replaceAllCharsAux pat repl s.length s

/-- chalk v4 applyStyle for a single style: replace nested close
codes by the open code, then wrap in the open and close codes. -/
def ansiWrap (openCode closeCode s : String) : String :=
  openCode ++ String.mk (replaceAllChars closeCode.data openCode.data s.data) ++ closeCode

/-- chalk v4 applyStyle for a two-style chain such as
chalk.white.bold: openAll is the concatenation of the two open codes,
closeAll the reverse concatenation of the close codes, and the nested
close codes of both styles are replaced from the innermost style
outwards. -/
def ansiWrap2 (o1 c1 o2 c2 s : String) : String :=
  o1 ++ o2 ++
    String.mk (replaceAllChars c1.data o1.data (replaceAllChars c2.data o2.data s.data)) ++
    c2 ++ c1

def chalkGreen (s : String) : String := ansiWrap "\x1b[32m" "\x1b[39m" s

def chalkYellow (s : String) : String := ansiWrap "\x1b[33m" "\x1b[39m" s

def chalkRed (s : String) : String := ansiWrap "\x1b[31m" "\x1b[39m" s

def chalkCyan (s : String) : String := ansiWrap "\x1b[36m" "\x1b[39m" s

def chalkWhite (s : String) : String := ansiWrap "\x1b[37m" "\x1b[39m" s

def chalkGray (s : String) : String := ansiWrap "\x1b[90m" "\x1b[39m" s

def chalkWhiteBold (s : String) : String := ansiWrap2 "\x1b[37m" "\x1b[39m" "\x1b[1m" "\x1b[22m" s

def chalkBoldMagenta (s : String) : String :=
  ansiWrap2 "\x1b[1m" "\x1b[22m" "\x1b[35m" "\x1b[39m" s

def chalkBoldCyan (s : String) : String := ansiWrap2 "\x1b[1m" "\x1b[22m" "\x1b[36m" "\x1b[39m" s

def chalkBoldWhite (s : String) : String := ansiWrap2 "\x1b[1m" "\x1b[22m" "\x1b[37m" "\x1b[39m" s

def chalkCyanBold (s : String) : String := ansiWrap2 "\x1b[36m" "\x1b[39m" "\x1b[1m" "\x1b[22m" s

def chalkMagentaBold (s : String) : String :=
  ansiWrap2 "\x1b[35m" "\x1b[39m" "\x1b[1m" "\x1b[22m" s

def chalkYellowBold (s : String) : String :=
  ansiWrap2 "\x1b[33m" "\x1b[39m" "\x1b[1m" "\x1b[22m" s

/-- JS String.prototype.repeat. -/
def stringRepeat (s : String) : Nat → String
  | 0 => ""
  | n + 1 => s ++ stringRepeat s n

/-- JS String.prototype.split on a single-character separator. -/
def splitOnCharAux (sep : Char) : List Char → List Char → List (List Char)
  | [], acc => [acc.reverse]
  | c :: rest, acc =>
    if c = sep then acc.reverse :: splitOnCharAux sep rest []
    else splitOnCharAux sep rest (c :: acc)

def splitOnChar (sep : Char) (s : String) : List String :=
  (splitOnCharAux sep s.data []).map String.mk

/-- TS: UIRenderer.renderPackageLine (src/ui/renderer.ts, lines 13 to
128).  String lengths count code points (the JS code counts UTF-16
units; package names and version strings are ASCII).  The local
variables rangeDashes and latestDashes of the source are assigned but
never read and are omitted; every Math.max(0, a - b) is written as
max 0 over truncated Nat subtraction. -/
def UIRenderer.renderPackageLine (state : PackageSelectionState) (index : Nat)
    (isCurrentRow : Bool) : String :=
  let pfx := if isCurrentRow then chalkGreen "❯ " else "  "
  let packageName :=
    if charListPrefixOf "@".data state.name.data then
      let parts := splitOnChar '/' state.name
      if 2 ≤ parts.length then
        let author := parts.headD ""
        let packagePart := String.intercalate "/" (parts.drop 1)
        if isCurrentRow then chalkWhiteBold author ++ chalkCyan ("/" ++ packagePart)
        else chalkWhiteBold author ++ chalkWhite ("/" ++ packagePart)
      else if isCurrentRow then chalkCyan state.name else chalkWhite state.name
    else if isCurrentRow then chalkCyan state.name else chalkWhite state.name
  let isCurrentSelected := state.selectedOption = SelectedOption.none
  let isRangeSelected := state.selectedOption = SelectedOption.range
  let isLatestSelected := state.selectedOption = SelectedOption.latest
  let currentDot := if isCurrentSelected then chalkGreen "●" else chalkGray "○"
  let currentVersion := chalkWhite state.currentVersionSpecifier
  let rangeDot :=
    if state.hasRangeUpdate then
      if isRangeSelected then chalkGreen "●" else chalkGray "○"
    else chalkGray "○"
  let rangeVersionText :=
    if state.hasRangeUpdate then
      chalkYellow (VersionUtils.applyVersionPrefix state.currentVersionSpecifier
        state.rangeVersion)
    else ""
  let latestDot :=
    if state.hasMajorUpdate then
      if isLatestSelected then chalkGreen "●" else chalkGray "○"
    else chalkGray "○"
  let latestVersionText :=
    if state.hasMajorUpdate then
      chalkRed (VersionUtils.applyVersionPrefix state.currentVersionSpecifier
        state.latestVersion)
    else ""
  let packageNameWidth := 38
  let currentColumnWidth := 16
  let rangeColumnWidth := 16
  let latestColumnWidth := 16
  let nameLength := state.name.length
  let namePadding := max 0 (packageNameWidth - nameLength - 1)
  let nameDashes := stringRepeat "-" namePadding
  let dashColor := if isCurrentRow then chalkWhite else chalkGray
  let packageNameSection := packageName ++ " " ++ dashColor nameDashes
  let currentSection := currentDot ++ " " ++ currentVersion
  let currentSectionLength := VersionUtils.getVisualLength currentSection + 1
  let currentPadding := max 0 (currentColumnWidth - currentSectionLength)
  let currentWithPadding := currentSection ++ " " ++ stringRepeat (dashColor "-") currentPadding
  let rangeSection :=
    if state.hasRangeUpdate then
      let rs := rangeDot ++ " " ++ rangeVersionText
      let rsLength := VersionUtils.getVisualLength rs + 1
      let rangePadding := max 0 (rangeColumnWidth - rsLength)
      rs ++ " " ++ stringRepeat (dashColor "-") rangePadding
    else stringRepeat " " rangeColumnWidth
  let latestSection :=
    if state.hasMajorUpdate then
      let ls := latestDot ++ " " ++ latestVersionText
      let lsLength := VersionUtils.getVisualLength ls + 1
      let latestPadding := max 0 (latestColumnWidth - lsLength)
      ls ++ " " ++ stringRepeat (dashColor "-") latestPadding
    else stringRepeat " " latestColumnWidth
  pfx ++ packageNameSection ++ "   " ++ currentWithPadding ++ "   " ++ rangeSection ++ "   " ++
    latestSection

/-- TS: UIRenderer.renderSectionHeader (src/ui/renderer.ts, lines 130
to 134). -/
def UIRenderer.renderSectionHeader (title : String) (sectionType : SectionType) : String :=
  match sectionType with
  | .main => "  " ++ chalkCyanBold title
  | .peer => "  " ++ chalkMagentaBold title
  | .optional => "  " ++ chalkYellowBold title

/-- TS: UIRenderer.renderSpacer (src/ui/renderer.ts, lines 136 to
138). -/
def UIRenderer.renderSpacer : String := ""

/-- TS: UIRenderer.renderInterface (src/ui/renderer.ts, lines 140 to
236).  renderableItems is an optional argument: none models the
undefined of JS and is distinct from some [] (their totalVisualItems
differ, their bodies agree); the optional dependencyTypeLabel is a
String whose empty value is falsy in JS exactly like undefined.  The
body only reads its arguments and pushes onto a fresh output array;
the embedding returns the output lines together with the unchanged
states and renderableItems arguments to make the absence of writes
explicit.  The index loops over the visible window are written as
drop/take of the same index range. -/
def UIRenderer.renderInterface (states : List PackageSelectionState) (currentRow : Nat)
    (scrollOffset : Nat) (maxVisibleItems : Nat) (isInitialRender : Bool)
    (renderableItems : Option (List RenderableItem)) (dependencyTypeLabel : String) :
    List String × List PackageSelectionState × Option (List RenderableItem) :=
  let headerLine := "  " ++ chalkBoldMagenta "🚀 pnpm-upgrade-interactive"
  let labelLines :=
    if dependencyTypeLabel ≠ "" then ["  " ++ chalkBoldCyan dependencyTypeLabel, ""] else []
  let legendLine :=
    "  " ++ chalkBoldWhite "↑/↓ " ++ chalkGray "Move" ++ "  " ++ chalkBoldWhite "←/→ " ++
      chalkGray "Select versions" ++ "  " ++ chalkBoldWhite "I " ++ chalkGray "Info" ++ "  " ++
      chalkBoldWhite "M " ++ chalkGray "Select all minor" ++ "  " ++ chalkBoldWhite "L " ++
      chalkGray "Select all"
  let legendLine2 := "  " ++ chalkBoldWhite "U " ++ chalkGray "Unselect all"
  let totalPackages := states.length
  let totalVisualItems :=
    match renderableItems with
    | Option.none => totalPackages
    | Option.some items => items.length
  let startItem := scrollOffset + 1
  let endItem := min (scrollOffset + maxVisibleItems) totalVisualItems
  let statusLine :=
    if maxVisibleItems < totalVisualItems then
      chalkGray ("Showing " ++ chalkGray (toString startItem) ++ "-" ++
          chalkGray (toString endItem) ++ " of " ++ chalkGray (toString totalPackages) ++
          " packages") ++
        "  " ++ chalkGray "Enter " ++ chalkGray "Confirm" ++ "  " ++ chalkGray "Esc " ++
        chalkGray "Cancel"
    else
      chalkGray ("Showing all " ++ chalkGray (toString totalPackages) ++ " packages") ++
        "  " ++ chalkGray "Enter " ++ chalkGray "Confirm" ++ "  " ++ chalkGray "Esc " ++
        chalkGray "Cancel"
  let bodyLines :=
    match renderableItems with
    | Option.some items =>
      if 0 < items.length then
        ((items.drop scrollOffset).take maxVisibleItems).map fun item =>
          match item with
          | .header title sectionType => UIRenderer.renderSectionHeader title sectionType
          | .spacer => UIRenderer.renderSpacer
          | .package st originalIndex =>
            UIRenderer.renderPackageLine st originalIndex (decide (originalIndex = currentRow))
      else
        ((states.enum.drop scrollOffset).take maxVisibleItems).map fun p =>
          UIRenderer.renderPackageLine p.2 p.1 (decide (p.1 = currentRow))
    | Option.none =>
      ((states.enum.drop scrollOffset).take maxVisibleItems).map fun p =>
        UIRenderer.renderPackageLine p.2 p.1 (decide (p.1 = currentRow))
  ([headerLine, ""] ++ labelLines ++ [legendLine, legendLine2, "  " ++ statusLine, ""] ++
      bodyLines,
    states, renderableItems)

/-- C8: renderInterface is deterministic — two calls with identical
arguments return byte-identical line lists — and it does not mutate
its states or renderable-items arguments: the embedding returns both
unchanged because the source body performs no write to either. -/
theorem renderInterface_pure (s1 s2 : List PackageSelectionState) (c1 c2 o1 o2 m1 m2 : Nat)
    (i1 i2 : Bool) (r1 r2 : Option (List RenderableItem)) (d1 d2 : String)
    (hs : s1 = s2) (hc : c1 = c2) (ho : o1 = o2) (hm : m1 = m2) (hi : i1 = i2) (hr : r1 = r2)
    (hd : d1 = d2) :
    UIRenderer.renderInterface s1 c1 o1 m1 i1 r1 d1 =
      UIRenderer.renderInterface s2 c2 o2 m2 i2 r2 d2 ∧
    (UIRenderer.renderInterface s1 c1 o1 m1 i1 r1 d1).2.1 = s1 ∧
    (UIRenderer.renderInterface s1 c1 o1 m1 i1 r1 d1).2.2 = r1 := by
  subst hs hc ho hm hi hr hd
  exact ⟨rfl, rfl, rfl⟩

theorem renderInterface_pure_witness :
    UIRenderer.renderInterface [demoPkg] 0 0 15 true Option.none "" =
      UIRenderer.renderInterface [demoPkg] 0 0 15 true Option.none "" ∧
    (UIRenderer.renderInterface [demoPkg] 0 0 15 true Option.none "").2.1 = [demoPkg] ∧
    (UIRenderer.renderInterface [demoPkg] 0 0 15 true Option.none "").2.2 = Option.none :=
  renderInterface_pure [demoPkg] [demoPkg] 0 0 0 0 15 15 true true Option.none Option.none "" ""
    rfl rfl rfl rfl rfl rfl rfl

/-- Does the second string occur as a contiguous substring of the
first? -/
def hasSubListAux (pat : List Char) : List Char → Bool
  | [] => charListPrefixOf pat []
  | c :: rest => charListPrefixOf pat (c :: rest) || hasSubListAux pat rest

def containsSubstring (s sub : String) : Bool := hasSubListAux sub.data s.data

set_option maxRecDepth 100000 in
/-- C9: the concrete scenario of the spec: one package with both
updates available, specifier ^4.1.0, range version 4.2.0, latest
version 5.0.0, starting unselected; three right cycles through
updateSelection at the cursor row produce none, range, latest, none;
applyVersionPrefix reapplies the caret to the range version; and the
rendered package line contains the string ^4.2.0 in its range slot
while range is selected and ^5.0.0 in its latest slot while latest is
selected. -/
theorem right_cycle_and_render_scenario :
    (StateManager.updateSelection (StateManager.init 0 24) [demoPkg] .right).2 =
      [{ demoPkg with selectedOption := SelectedOption.range }] ∧
    (StateManager.updateSelection (StateManager.init 0 24)
        [{ demoPkg with selectedOption := SelectedOption.range }] .right).2 =
      [{ demoPkg with selectedOption := SelectedOption.latest }] ∧
    (StateManager.updateSelection (StateManager.init 0 24)
        [{ demoPkg with selectedOption := SelectedOption.latest }] .right).2 = [demoPkg] ∧
    VersionUtils.applyVersionPrefix "^4.1.0" "4.2.0" = "^4.2.0" ∧
    containsSubstring
      (UIRenderer.renderPackageLine { demoPkg with selectedOption := SelectedOption.range } 0
        true) "^4.2.0" = true ∧
    containsSubstring
      (UIRenderer.renderPackageLine { demoPkg with selectedOption := SelectedOption.latest } 0
        true) "^5.0.0" = true := by
  refine ⟨by decide, by decide, by decide, by decide, by decide, by decide⟩

end PnpmUpgrade
